import Mathlib

/-! # Verification of the blgr logger core (src/lib/logger.js)

A shallow embedding of the logger rotation, buffering, pruning, recovery
and configuration logic, with theorems checking the natural-language
specification against it.

Conventions of the embedding:
* The mutable fields of the logger become a `LoggerState` record; methods become
  pure functions from state to state (plus their return value).
* Asynchronous methods (`rotate`) are split at their `await` points into
  explicit phases (`rotateBegin` / `rotateEnd`) so that writes interleaved
  with an in-flight rotation can be expressed as folds between the phases.
* The current file handle is modelled as `Option (List String)`: `none` is a
  null/absent stream, `some msgs` is an open handle recording the messages
  written through it (in order) since it was opened.
* Wall-clock instants are an explicit `DateTime` argument (the JS code reads
  `new Date()`); `fs.unsupported` and `Logger.HAS_TTY` are fields fixed at
  construction.
* JS numbers appearing in the `(x >>> 0) === x` assertions are modelled as
  `Int` (the check holds exactly for integers in `[0, 2^32)`).
* `assert` failures (thrown exceptions) are modelled as a `some errorMessage`
  component of the result; `none` means no exception.
-/

/-- A calendar instant as carried by a JS `Date`, at millisecond precision. -/
structure DateTime where
  year : Nat
  month : Nat
  day : Nat
  hour : Nat
  minute : Nat
  second : Nat
  ms : Nat
deriving DecidableEq, Repr

/-- Decimal digit character, as produced by JS number-to-string formatting. -/
def dc (n : Nat) : Char :=
  if n = 0 then '0'
  else if n = 1 then '1'
  else if n = 2 then '2'
  else if n = 3 then '3'
  else if n = 4 then '4'
  else if n = 5 then '5'
  else if n = 6 then '6'
  else if n = 7 then '7'
  else if n = 8 then '8'
  else if n = 9 then '9'
  else '9'

/-- Zero-padded fixed-width decimal rendering of `n` on `k` digits, as used by
`Date.prototype.toJSON` for each timestamp field. -/
def padNat : Nat → Nat → List Char
  | 0, _ => []
  | k + 1, n => dc (n / 10 ^ k) :: padNat k (n % 10 ^ k)

/-- Characters of `new Date(...).toJSON()`: `YYYY-MM-DDTHH:MM:SS.mmmZ`
(ECMA-262 date-time string format, for years in `0..9999`). -/
def toJSONChars (d : DateTime) : List Char :=
  padNat 4 d.year ++ '-' :: padNat 2 d.month ++ '-' :: padNat 2 d.day ++
  'T' :: padNat 2 d.hour ++ ':' :: padNat 2 d.minute ++ ':' :: padNat 2 d.second ++
  '.' :: padNat 3 d.ms ++ ['Z']

/-- The `.replace(/:/g,'-')` step of `dateString`: every colon becomes a dash. -/
def colonDash (c : Char) : Char :=
  if c = ':' then '-' else c

/-- The `.replace(a, b)` step with a one-character string pattern: JS `replace`
with a string argument rewrites only the first occurrence. -/
def replaceFirst (a b : Char) : List Char → List Char
  | [] => []
  | c :: cs => if c = a then b :: cs else c :: replaceFirst a b cs

/-- Characters of `dateString()` (src/lib/logger.js:1015-1023): the `toJSON`
instant with colons dashed, `T` to `_`, the period dashed, and the trailing
`Z` sliced off. -/
def dateChars (d : DateTime) : List Char :=
  (replaceFirst '.' '-' (replaceFirst 'T' '_' ((toJSONChars d).map colonDash))).dropLast

/-- Models `dateString()` of src/lib/logger.js, at the explicit instant `d`. -/
def dateString (d : DateTime) : String :=
  String.mk (dateChars d)

/-- Models `new Date().toISOString().slice(0, -5) + 'Z'` (src/lib/logger.js:560):
the instant without its millisecond part. -/
def isoNoMs (d : DateTime) : String :=
  String.mk ((toJSONChars d).take ((toJSONChars d).length - 5) ++ ['Z'])

/-! ## The archive-matching regular expression

`prune` builds `new RegExp(base + "_.*" + ext)` — note the interpolated
`base` and `ext` are NOT escaped — and uses `re.test`.  We embed the
fragment of JS regular expressions such patterns fall into: literal
characters, `.` (any single character), and the quantifiers `?`/`*`/`+`
(with an optional lazy `?` suffix, which does not change matchability) on
the preceding atom.  A quantifier with nothing to repeat is a
`SyntaxError`, making the `new RegExp` call throw.  Constructs outside
this fragment (escapes, anchors, classes, groups, braces, alternation) are
not modelled: the parser rejects them, and theorems about inputs that use
them carry an explicit side condition. -/

/-- An atom of the pattern: a literal character or the `.` wildcard. -/
inductive RAtom where
  | lit (c : Char)
  | dot
deriving DecidableEq, Repr

/-- A piece of the pattern: an atom, bare or under a quantifier. -/
inductive RPiece where
  | once (a : RAtom)
  | opt (a : RAtom)
  | star (a : RAtom)
  | plus (a : RAtom)
deriving DecidableEq, Repr

/-- Quantifier characters of the modelled fragment. -/
def isQuantChar (c : Char) : Bool :=
  c = '?' || c = '*' || c = '+'

/-- Metacharacters whose constructs the embedding does not model. -/
def isUnmodeled (c : Char) : Bool :=
  c = '\\' || c = '^' || c = '$' || c = '(' || c = ')' || c = '[' || c = ']' ||
  c = '\x7b' || c = '\x7d' || c = '|'

/-- How a pattern character reads as an atom: `.` is the wildcard,
everything else is literal. -/
def atomOf (c : Char) : RAtom :=
  if c = '.' then RAtom.dot else RAtom.lit c

/-- Parses a pattern string of the modelled fragment: each atom may be
followed by `?`, `*` or `+` (optionally suffixed by a lazy `?`, which only
affects match positions, not matchability).  A leading or doubled
quantifier is the `SyntaxError` thrown by `new RegExp` (`none`); characters
of unmodelled constructs also yield `none` (outside the embedding). -/
def parseRegex : List Char → Option (List RPiece)
  | [] => some []
  | c :: '?' :: '?' :: rest =>
    if isQuantChar c || isUnmodeled c then none
    else (parseRegex rest).map (fun ps => RPiece.opt (atomOf c) :: ps)
  | c :: '?' :: rest =>
    if isQuantChar c || isUnmodeled c then none
    else (parseRegex rest).map (fun ps => RPiece.opt (atomOf c) :: ps)
  | c :: '*' :: '?' :: rest =>
    if isQuantChar c || isUnmodeled c then none
    else (parseRegex rest).map (fun ps => RPiece.star (atomOf c) :: ps)
  | c :: '*' :: rest =>
    if isQuantChar c || isUnmodeled c then none
    else (parseRegex rest).map (fun ps => RPiece.star (atomOf c) :: ps)
  | c :: '+' :: '?' :: rest =>
    if isQuantChar c || isUnmodeled c then none
    else (parseRegex rest).map (fun ps => RPiece.plus (atomOf c) :: ps)
  | c :: '+' :: rest =>
    if isQuantChar c || isUnmodeled c then none
    else (parseRegex rest).map (fun ps => RPiece.plus (atomOf c) :: ps)
  | c :: rest =>
    if isQuantChar c || isUnmodeled c then none
    else (parseRegex rest).map (fun ps => RPiece.once (atomOf c) :: ps)

/-- Whether an atom matches one character. -/
def amatch (a : RAtom) (d : Char) : Bool :=
  match a with
  | RAtom.lit c => c = d
  | RAtom.dot => true

/-- All suffixes reachable by consuming a (possibly empty) run of
characters matching the atom — the backtracking choices of `a*`. -/
def atomRuns (a : RAtom) : List Char → List (List Char)
  | [] => [[]]
  | d :: ds => (d :: ds) :: (if amatch a d then atomRuns a ds else [])

/-- Whether the pattern matches some prefix of the character list (the
backtracking core of regex matching). -/
def rmatchAt : List RPiece → List Char → Bool
  | [], _ => true
  | RPiece.once a :: ps, ds =>
    match ds with
    | [] => false
    | d :: ds2 => amatch a d && rmatchAt ps ds2
  | RPiece.opt a :: ps, ds =>
    rmatchAt ps ds ||
      (match ds with
       | [] => false
       | d :: ds2 => amatch a d && rmatchAt ps ds2)
  | RPiece.star a :: ps, ds => (atomRuns a ds).any (rmatchAt ps)
  | RPiece.plus a :: ps, ds =>
    match ds with
    | [] => false
    | d :: ds2 => amatch a d && (atomRuns a ds2).any (rmatchAt ps)

/-- Models `re.test(s)`: the unanchored pattern matches starting at some position. -/
def rtest (ps : List RPiece) : List Char → Bool
  | [] => rmatchAt ps []
  | d :: ds => rmatchAt ps (d :: ds) || rtest ps ds

/-- The characters of the pattern string `` `${base}_.*${ext}` ``
(src/lib/logger.js:226). -/
def patternChars (base ext : String) : List Char :=
  base.data ++ '_' :: '.' :: '*' :: ext.data

/-- The parsed archive pattern `new RegExp(`${base}_.*${ext}`)`, `none` when
the constructor throws (or the pattern leaves the modelled fragment). -/
def archiveRegex (base ext : String) : Option (List RPiece) :=
  parseRegex (patternChars base ext)

/-- Minimum number of characters any match of the pattern must consume
(`?`- and `*`-pieces can consume zero; `once` and `plus` consume at least
one). -/
def minLen : List RPiece → Nat
  | [] => 0
  | RPiece.opt _ :: ps => minLen ps
  | RPiece.star _ :: ps => minLen ps
  | _ :: ps => minLen ps + 1

/-- A character that the unescaped interpolation leaves literal: neither a
quantifier nor an unmodelled metacharacter (the wildcard `.` is allowed —
it only widens what a position may hold). -/
def safeChar (c : Char) : Bool :=
  !(isQuantChar c || isUnmodeled c)

/-- Whether the head of a remaining pattern (if any) is a quantifier — the
condition under which the previous atom stays unquantified. -/
def headNotQuant : List Char → Bool
  | [] => true
  | r :: _ => !isQuantChar r

/-! ## Retention pruning -/

/-- Non-strict lexicographic order on character lists by code unit, the
comparison `Array.prototype.sort()` applies to strings. -/
def lexLeb : List Char → List Char → Bool
  | [], _ => true
  | _ :: _, [] => false
  | a :: as, b :: bs =>
    if a.toNat < b.toNat then true
    else if b.toNat < a.toNat then false
    else lexLeb as bs

/-- Strict lexicographic order on character lists by code unit (JS `<` on
strings). -/
def lexLtb : List Char → List Char → Bool
  | [], [] => false
  | [], _ :: _ => true
  | _ :: _, [] => false
  | a :: as, b :: bs =>
    if a.toNat < b.toNat then true
    else if b.toNat < a.toNat then false
    else lexLtb as bs

/-- The default JS string sort order, as a relation on strings. -/
def jsLe (a b : String) : Prop :=
  lexLeb a.data b.data = true

instance : DecidableRel jsLe :=
  fun a b => inferInstanceAs (Decidable (lexLeb a.data b.data = true))

/-- Models `Array.prototype.sort()` with no comparator on an array of strings:
lexicographic by code unit. ES2019 sorts are stable; insertion sort is
stable. -/
def sortJS (l : List String) : List String :=
  List.insertionSort jsLe l

instance : IsTotal String jsLe where
  total := by
    have key : ∀ x y : List Char, lexLeb x y = true ∨ lexLeb y x = true := by
      intro x
      induction x with
      | nil => intro y; left; cases y <;> simp [lexLeb]
      | cons a as ih =>
        intro y
        cases y with
        | nil => right; simp [lexLeb]
        | cons b bs =>
          by_cases h1 : a.toNat < b.toNat
          · left; simp [lexLeb, h1]
          · by_cases h2 : b.toNat < a.toNat
            · right; simp [lexLeb, h1, h2]
            · rcases ih bs with h | h
              · left; simp [lexLeb, h1, h2, h]
              · right; simp [lexLeb, h1, h2, h]
    intro a b
    exact key a.data b.data

instance : IsTrans String jsLe where
  trans := by
    have key : ∀ x y z : List Char,
        lexLeb x y = true → lexLeb y z = true → lexLeb x z = true := by
      intro x
      induction x with
      | nil => intro y z _ _; cases z <;> simp [lexLeb]
      | cons a as ih =>
        intro y z hxy hyz
        cases y with
        | nil => simp [lexLeb] at hxy
        | cons b bs =>
          cases z with
          | nil => simp [lexLeb] at hyz
          | cons c cs =>
            rcases Nat.lt_trichotomy a.toNat b.toNat with h1 | h1 | h1
            · rcases Nat.lt_trichotomy b.toNat c.toNat with h2 | h2 | h2
              · simp [lexLeb]; omega
              · simp [lexLeb]; omega
              · simp [lexLeb, Nat.lt_asymm h2, h2] at hyz
            · rcases Nat.lt_trichotomy b.toNat c.toNat with h2 | h2 | h2
              · simp [lexLeb]; omega
              · have hxy2 : lexLeb as bs = true := by
                  simp [lexLeb, h1] at hxy
                  exact hxy
                have hyz2 : lexLeb bs cs = true := by
                  simp [lexLeb, h2] at hyz
                  exact hyz
                simp [lexLeb, h1, h2]
                exact ih bs cs hxy2 hyz2
              · simp [lexLeb, Nat.lt_asymm h2, h2] at hyz
            · simp [lexLeb, Nat.lt_asymm h1, h1] at hxy
    intro a b c
    exact key a.data b.data c.data

/-- Models `arr.slice(0, -1 * k)`.  For `k = 0` the bound `-1 * 0` is `-0`, which
`slice` converts to `0`, so the slice is empty. -/
def jsSliceNegEnd (l : List String) (k : Nat) : List String :=
  if k = 0 then [] else l.take (l.length - k)

/-- The directory entries matching the archive pattern
(`files.filter(filename => re.test(filename))`, src/lib/logger.js:227);
empty when the `RegExp` constructor throws before the filter runs. -/
def archiveMatches (files : List String) (base ext : String) : List String :=
  match archiveRegex base ext with
  | none => []
  | some ps => files.filter fun f => rtest ps f.data

/-- Models `Logger.prune(dir, base, ext)` (src/lib/logger.js:223-241), given the
directory listing `files`.  Returns the file names passed to `fs.unlink`, in
deletion order; an early return deletes nothing, and a throwing `new
RegExp` (the promise rejects before any `unlink`) also deletes nothing. -/
def Logger.prune (maxFiles : Nat) (files : List String) (base ext : String) : List String :=
  if (archiveRegex base ext).isNone then []
  else
    let oldFiles := archiveMatches files base ext
    if oldFiles.length ≤ maxFiles then []
    else jsSliceNegEnd (sortJS oldFiles) maxFiles

/-! ## Path helpers (Node `path`, POSIX, for ordinary `dir/name.ext` paths) -/

/-- Models `path.basename(p)`: the part after the last separator. -/
def basenameAll (p : String) : String :=
  ((p.splitOn "/").getLast?).getD ""

/-- Models `path.extname(p)`: from the last `.` of the basename, unless that dot is
its first character. -/
def extname (p : String) : String :=
  let segs := (basenameAll p).splitOn "."
  match segs with
  | [] => ""
  | [_] => ""
  | s :: rest =>
    if s = "" && rest.length = 1 then ""
    else "." ++ (rest.getLast?).getD ""

/-- Models `path.basename(p, ext)`: the basename with a trailing `ext` removed,
unless the basename is exactly `ext`. -/
def basenameDrop (p ext : String) : String :=
  let b := basenameAll p
  if ext ≠ "" && b ≠ ext && ext.data.isSuffixOf b.data then
    String.mk (b.data.take (b.data.length - ext.data.length))
  else b

/-- Models `path.dirname(p)`: everything before the last separator, `"."` for a
bare file name. -/
def dirname (p : String) : String :=
  let parts := p.splitOn "/"
  if parts.length ≤ 1 then "."
  else
    let d := String.intercalate "/" parts.dropLast
    if d = "" then "/" else d

/-- Models `path.join(dir, name)` for a plain directory and file name. -/
def pathJoin (dir name : String) : String :=
  if dir = "" then name else dir ++ "/" ++ name

/-- The archive file name computed at src/lib/logger.js:195:
`Path.join(dir, base + '_' + dateString() + ext)`. -/
def archiveName (dir base ext : String) (d : DateTime) : String :=
  pathJoin dir (base ++ "_" ++ dateString d ++ ext)

/-! ## Logger state and operations -/

/-- Level constants (`Logger.levels`, src/lib/logger.js:888-895). -/
def levelNONE : Nat := 0
/-- Models `Logger.levels.ERROR`. -/
def levelERROR : Nat := 1
/-- Models `Logger.levels.WARNING`. -/
def levelWARNING : Nat := 2
/-- Models `Logger.levels.INFO`. -/
def levelINFO : Nat := 3
/-- Models `Logger.levels.DEBUG`. -/
def levelDEBUG : Nat := 4
/-- Models `Logger.levels.SPAM`. -/
def levelSPAM : Nat := 5

/-- Models `Logger.levelsByVal` (src/lib/logger.js:903-910). -/
def levelsByVal : List String :=
  ["none", "error", "warning", "info", "debug", "spam"]

/-- Models `Logger.prefixByVal` (src/lib/logger.js:918-925). -/
def prefByVal : List String :=
  ["N", "E", "W", "I", "D", "S"]

/-- Models `Logger.styles` (src/lib/logger.js:933-940). -/
def styles : List String :=
  ["0", "1;31", "1;33", "94", "90", "90"]

/-- The retry delay of `Logger.retry` (src/lib/logger.js:318): 10 seconds. -/
def retryDelayMs : Nat := 10000

/-- The mutable fields of a `Logger` (src/lib/logger.js:35-55), plus the two
environment constants it reads (`fs.unsupported`, `Logger.HAS_TTY`).  The
`timer` field holds the delay of the pending retry timer, if one is
outstanding. -/
structure LoggerState where
  level : Nat := levelNONE
  colors : Bool := false
  timestamps : Bool := true
  console : Bool := true
  closed : Bool := true
  closing : Bool := false
  filename : Option String := none
  stream : Option (List String) := none
  rotating : Bool := false
  fileSize : Nat := 0
  buffer : List String := []
  maxFileSize : Nat := 20971520
  maxFiles : Nat := 10
  timer : Option Nat := none
  fsUnsupported : Bool := false
  hasTTY : Bool := false
deriving DecidableEq, Repr

/-- Models `Logger.close()` (src/lib/logger.js:142-167): cancel a pending retry
timer, release the stream, zero the byte counter (unless the filesystem is
unsupported, where the early return skips it) and mark the logger closed.
The transient `closing` flag is set and cleared within the same call. -/
def Logger.close (st : LoggerState) : LoggerState :=
  let st := { st with timer := none }
  if st.fsUnsupported then { st with closed := true, stream := none }
  else { st with stream := none, fileSize := 0, closed := true }

/-- Models `Logger.open()` (src/lib/logger.js:113-134).  `statSize` is the result of
`getSize()` (the on-disk size of the file being appended to; `0` when the
file does not exist). -/
def Logger.openUp (st : LoggerState) (statSize : Nat) : LoggerState :=
  if st.filename.isNone then { st with closed := false }
  else if st.stream.isSome then { st with closed := false }
  else if st.fsUnsupported then { st with closed := false }
  else { st with fileSize := statSize, stream := some [], closed := false }

/-- Models `toUpperCase` on an ASCII character. -/
def upperChar (c : Char) : Char :=
  if 'a' ≤ c && c ≤ 'z' then Char.ofNat (c.toNat - 32) else c

/-- Models `levelName.toUpperCase()` for ASCII level names. -/
def upperStr (s : String) : String :=
  String.mk (s.data.map upperChar)

/-- Property lookup `Logger.levels[name]` (src/lib/logger.js:888-895). -/
def levelOfName (s : String) : Option Nat :=
  if s = "NONE" then some levelNONE
  else if s = "ERROR" then some levelERROR
  else if s = "WARNING" then some levelWARNING
  else if s = "INFO" then some levelINFO
  else if s = "DEBUG" then some levelDEBUG
  else if s = "SPAM" then some levelSPAM
  else none

/-- Models `Logger.setLevel(levelName)` (src/lib/logger.js:337-341).  The second
component is the thrown assertion message, if any; the assertion fires
before `this.level` is assigned, so a failing call leaves the state
untouched. -/
def Logger.setLevel (st : LoggerState) (name : String) : LoggerState × Option String :=
  match levelOfName (upperStr name) with
  | none => (st, some "Invalid log level.")
  | some l => ({ st with level := l }, none)

/-- The recognized configuration options (`LoggerOptions`).  Numeric options
are JS numbers; integral values are the only ones `(x >>> 0) === x` can
accept, so they are carried as `Int`. -/
structure JSOptions where
  level : Option String := none
  colors : Option Bool := none
  timestamps : Option Bool := none
  console : Option Bool := none
  filename : Option String := none
  maxFileSize : Option Int := none
  maxFiles : Option Int := none
deriving Repr

/-- Sequencing of the option blocks of `Logger.set`: a thrown assertion stops
processing (the state mutated so far is kept, as JS exceptions do not roll
back assignments). -/
def setStep (r : LoggerState × Option String) (f : LoggerState → LoggerState × Option String) :
    LoggerState × Option String :=
  match r with
  | (st, none) => f st
  | e => e

/-- Models `options.level` block of `Logger.set` (src/lib/logger.js:71-74). -/
def setOptLevel (o : JSOptions) (st : LoggerState) : LoggerState × Option String :=
  match o.level with
  | none => (st, none)
  | some s => Logger.setLevel st s

/-- Models `options.colors` block (src/lib/logger.js:76-79): honored only when
stdout is a TTY. -/
def setOptColors (o : JSOptions) (st : LoggerState) : LoggerState × Option String :=
  match o.colors with
  | none => (st, none)
  | some b => if st.hasTTY then ({ st with colors := b }, none) else (st, none)

/-- Models `options.timestamps` block (src/lib/logger.js:81-84). -/
def setOptTimestamps (o : JSOptions) (st : LoggerState) : LoggerState × Option String :=
  match o.timestamps with
  | none => (st, none)
  | some b => ({ st with timestamps := b }, none)

/-- Models `options.console` block (src/lib/logger.js:86-89). -/
def setOptConsole (o : JSOptions) (st : LoggerState) : LoggerState × Option String :=
  match o.console with
  | none => (st, none)
  | some b => ({ st with console := b }, none)

/-- Models `options.filename` block (src/lib/logger.js:91-94). -/
def setOptFilename (o : JSOptions) (st : LoggerState) : LoggerState × Option String :=
  match o.filename with
  | none => (st, none)
  | some f => ({ st with filename := some f }, none)

/-- Models `options.maxFileSize` block (src/lib/logger.js:96-99):
`assert((options.maxFileSize >>> 0) === options.maxFileSize)` holds exactly
for integers in `[0, 2^32)`. -/
def setOptMaxFileSize (o : JSOptions) (st : LoggerState) : LoggerState × Option String :=
  match o.maxFileSize with
  | none => (st, none)
  | some x =>
    if 0 ≤ x && x < 4294967296 then ({ st with maxFileSize := x.toNat }, none)
    else (st, some "Assertion failed.")

/-- Models `options.maxFiles` block (src/lib/logger.js:101-104). -/
def setOptMaxFiles (o : JSOptions) (st : LoggerState) : LoggerState × Option String :=
  match o.maxFiles with
  | none => (st, none)
  | some x =>
    if 0 ≤ x && x < 4294967296 then ({ st with maxFiles := x.toNat }, none)
    else (st, some "Assertion failed.")

/-- Models `Logger.set(options)` for an options object (src/lib/logger.js:62-105).
`assert(this.closed)` is checked first; the option blocks then run in source
order, an assertion failure aborting the rest. -/
def Logger.set (st : LoggerState) (o : JSOptions) : LoggerState × Option String :=
  if !st.closed then (st, some "Assertion failed.")
  else
    setStep (setStep (setStep (setStep (setStep (setStep
      (setOptLevel o st)
      (setOptColors o)) (setOptTimestamps o)) (setOptConsole o))
      (setOptFilename o)) (setOptMaxFileSize o)) (setOptMaxFiles o)

/-! ## Write path -/

/-- The file line of `writeStream` (src/lib/logger.js:560-568):
`[<prefix>:<iso-without-ms>] (<module>)? <formatted>\n`.  `fmtArgs` is the
output of the external `format` collaborator. -/
def fileLine (level : Nat) (module : Option String) (fmtArgs : String) (now : DateTime) : String :=
  "[" ++ (prefByVal.getD level "") ++ ":" ++ isoNoMs now ++ "] " ++
  (match module with
   | some m => "(" ++ m ++ ") "
   | none => "") ++ fmtArgs ++ "\n"

/-- Models `Logger.writeStream(level, module, args)` (src/lib/logger.js:549-578).
The Bool result records whether the threshold check invoked `this.rotate()`
(a fire-and-forget promise the caller never awaits; the rotation itself is
the explicit `rotateBegin`/`rotateEnd` phases below).  The `assert(name)`
guard throws on a level outside `prefixByVal`; the logger only passes levels
`0..5`, and that branch is modelled as a no-op. -/
def Logger.writeStream (st : LoggerState) (level : Nat) (module : Option String)
    (fmtArgs : String) (now : DateTime) : LoggerState × Bool :=
  if 5 < level then (st, false)
  else if st.stream.isNone && !st.rotating then (st, false)
  else if st.closing && !st.rotating then (st, false)
  else
    let msg := fileLine level module fmtArgs now
    if st.rotating then ({ st with buffer := st.buffer ++ [msg] }, false)
    else
      let sz := st.fileSize + msg.length
      let st1 := { st with stream := st.stream.map (fun s => s ++ [msg]), fileSize := sz }
      if st1.maxFileSize ≤ sz then (st1, true) else (st1, false)

/-- The console line of `writeConsole` (src/lib/logger.js:481-540), returned
as `some line` when a line is written to stdout/stderr and `none` when the
console sink is disabled (the invalid-level assertion is modelled as no
output, as in `writeStream`).  `process.stdout` is assumed present. -/
def Logger.writeConsole (st : LoggerState) (level : Nat) (module : Option String)
    (fmtArgs : String) (now : DateTime) : Option String :=
  if 5 < level then none
  else
    let tsPre := if st.timestamps then "(" ++ String.mk (toJSONChars now) ++ ") " else ""
    if !st.console then none
    else
      let tag :=
        if st.colors then
          "\x1b[" ++ (styles.getD level "") ++ "m[" ++ (levelsByVal.getD level "") ++ "]\x1b[m "
        else "[" ++ (levelsByVal.getD level "") ++ "] "
      let modTag :=
        match module with
        | some m => "(" ++ m ++ ") "
        | none => ""
      some (tsPre ++ tag ++ modTag ++ fmtArgs ++ "\n")

/-- Models `Logger.log(level, module, args)` (src/lib/logger.js:446-455).  Returns
the new state, the console line written (if any) and whether a rotation was
triggered by the file write. -/
def Logger.log (st : LoggerState) (level : Nat) (module : Option String)
    (fmtArgs : String) (now : DateTime) : LoggerState × Option String × Bool :=
  if st.closed && !st.rotating then (st, none, false)
  else if decide (st.level < level) then (st, none, false)
  else
    let out := Logger.writeConsole st level module fmtArgs now
    let (st1, trig) := Logger.writeStream st level module fmtArgs now
    (st1, out, trig)

/-! ## Rotation -/

/-- The synchronous steps of `Logger.rotate()` (src/lib/logger.js:176-197) up
to and including the rename: the three guards, entering the `rotating`
state, `close()`, and the rename of the live file to its archive name.  On
rotation the result carries the archive path and the messages the renamed
file holds (those written through the closed handle); a `none` result is the
`return null` of a guard, leaving the state untouched. -/
def rotateBegin (st : LoggerState) (d : DateTime) :
    LoggerState × Option (String × List String) :=
  if st.rotating then (st, none)
  else
    match st.filename with
    | none => (st, none)
    | some fn =>
      if st.fsUnsupported then (st, none)
      else
        let ext := extname fn
        let base := basenameDrop fn ext
        let dir := dirname fn
        let path := pathJoin dir (base ++ "_" ++ dateString d ++ ext)
        (Logger.close { st with rotating := true }, some (path, st.stream.getD []))

/-- The buffer-drain loop of `rotate()` (src/lib/logger.js:201-205): shift
each pending message, write it to the stream, and add its length to the byte
counter. -/
def drainLoop (stream : List String) (fileSize : Nat) : List String → List String × Nat
  | [] => (stream, fileSize)
  | msg :: rest => drainLoop (stream ++ [msg]) (fileSize + msg.length) rest

/-- The drain step applied to a state.  In `rotate()` the preceding `open()`
has always installed a stream; with a null stream the source would throw on
`this.stream.write`, so that branch leaves the state unchanged and is
unreachable from `rotateEnd`. -/
def drainAll (st : LoggerState) : LoggerState :=
  match st.stream with
  | none => st
  | some s =>
    let r := drainLoop s st.fileSize st.buffer
    { st with stream := some r.1, fileSize := r.2, buffer := [] }

/-- The steps of `Logger.rotate()` after the rename (src/lib/logger.js:
199-210): `open()` (the renamed-away file no longer exists, so `getSize`
returns 0), the buffer drain, and leaving the `rotating` state.  The
fire-and-forget `prune` call touches only the disk, via `Logger.prune`. -/
def rotateEnd (st : LoggerState) : LoggerState :=
  let st1 := Logger.openUp st 0
  let st2 := drainAll st1
  { st2 with rotating := false }

/-- Models `Logger.rotate()` (src/lib/logger.js:176-211) run to completion with no
interleaved writes, returning the archive path (`rename`) or `null`. -/
def Logger.rotate (st : LoggerState) (d : DateTime) : LoggerState × Option String :=
  match rotateBegin st d with
  | (st1, none) => (st1, none)
  | (st1, some (p, _)) => (rotateEnd st1, some p)

/-! ## Recovery supervisor -/

/-- Models `Logger.retry()` (src/lib/logger.js:311-319): schedule a reopen after
10 seconds unless a timer is already outstanding. -/
def Logger.retry (st : LoggerState) : LoggerState :=
  if st.timer.isSome then st else { st with timer := some retryDelayMs }

/-- Models `Logger.handleError(err)` (src/lib/logger.js:266-275): close the broken
stream (secondary errors swallowed by the try/catch), clear the reference,
schedule a retry. -/
def Logger.handleError (st : LoggerState) : LoggerState :=
  Logger.retry { st with stream := none }

/-- Models `Logger.reopen()` (src/lib/logger.js:284-302).  `ok` tells whether
`openStream` succeeds; on failure another retry is scheduled. -/
def Logger.reopen (st : LoggerState) (ok : Bool) : LoggerState :=
  if st.stream.isSome then st
  else if st.closed then st
  else if st.fsUnsupported then st
  else if ok then { st with stream := some [] }
  else Logger.retry st

/-- The timer callback of `retry` (src/lib/logger.js:315-318) firing: clears
the timer handle, then reopens.  A cancelled timer (cleared by `close`)
never fires, hence the guard. -/
def timerFire (st : LoggerState) (ok : Bool) : LoggerState :=
  if st.timer.isSome then Logger.reopen { st with timer := none } ok else st

/-! ## Contexts -/

/-- A `LoggerContext` (src/lib/logger.js:662-676): the module label plus the
identity of the allocated object (each `new LoggerContext(...)` gets a fresh
`id`). -/
structure LoggerCtx where
  id : Nat
  module : String
deriving DecidableEq, Repr

/-- The context cache of a Logger (`this.contexts`, an object keyed by module
name) plus the allocation counter that models JS object identity. -/
structure CtxState where
  cache : List (String × LoggerCtx)
  nextId : Nat
deriving DecidableEq, Repr

/-- Models `Logger.context(module)` (src/lib/logger.js:463-472): return the cached
context for the module, creating and caching it on first request. -/
def Logger.context (s : CtxState) (m : String) : CtxState × LoggerCtx :=
  match s.cache.lookup m with
  | some c => (s, c)
  | none =>
    let c : LoggerCtx := ⟨s.nextId, m⟩
    ({ cache := s.cache ++ [(m, c)], nextId := s.nextId + 1 }, c)

/-- Models `LoggerContext.context(module)` (src/lib/logger.js:826-828):
`new LoggerContext(this.logger, module)` — a fresh allocation on every call,
not consulting the cache held by the Logger. -/
def LoggerContext.context (s : CtxState) (m : String) : CtxState × LoggerCtx :=
  ({ s with nextId := s.nextId + 1 }, ⟨s.nextId, m⟩)

/-! ## Interleaved writes for the rotation-boundary theorem -/

/-- One `writeStream` request: what the write path receives after level
filtering and formatting of the arguments. -/
structure WriteReq where
  level : Nat
  module : Option String
  fmtArgs : String
  now : DateTime

/-- Applying one write request to the state. -/
def applyWrite (st : LoggerState) (w : WriteReq) : LoggerState :=
  (Logger.writeStream st w.level w.module w.fmtArgs w.now).1

/-- The file line a write request produces. -/
def reqLine (w : WriteReq) : String :=
  fileLine w.level w.module w.fmtArgs w.now

/-- Field ranges under which the fixed-width `toJSON` rendering is faithful
(any instant an actual `Date` produces satisfies far tighter bounds). -/
def DateTime.InRange (d : DateTime) : Prop :=
  d.year < 10000 ∧ d.month < 100 ∧ d.day < 100 ∧ d.hour < 100 ∧
  d.minute < 100 ∧ d.second < 100 ∧ d.ms < 1000

/-- Chronological order of instants: lexicographic on the calendar fields
(which, for the field vectors valid `Date`s produce, is order of the
underlying epoch time). -/
def DateTime.earlier (d1 d2 : DateTime) : Prop :=
  d1.year < d2.year ∨ (d1.year = d2.year ∧
  (d1.month < d2.month ∨ (d1.month = d2.month ∧
  (d1.day < d2.day ∨ (d1.day = d2.day ∧
  (d1.hour < d2.hour ∨ (d1.hour = d2.hour ∧
  (d1.minute < d2.minute ∨ (d1.minute = d2.minute ∧
  (d1.second < d2.second ∨ (d1.second = d2.second ∧
  d1.ms < d2.ms)))))))))))

/-! # Theorems -/

/-! ## C7 — log calls after close are no-ops -/

/-- C7: after `close()` completes, every leveled log call made while no
rotation is in flight is a no-op: it raises no exception (the model is a
total function), writes nothing to the file or console, and leaves the
logger state (byte counter, buffer, handle) unchanged.  Every leveled entry
point (`error` … `spam`, and `logError`) delegates to `log` after its level
check, so this covers them all. -/
theorem log_after_close_noop (st : LoggerState) (level : Nat) (module : Option String)
    (fmtArgs : String) (now : DateTime) (h : st.rotating = false) :
    Logger.log (Logger.close st) level module fmtArgs now = (Logger.close st, none, false) := by
  have hc : (Logger.close st).closed = true := by
    unfold Logger.close
    dsimp only
    split <;> rfl
  have hr : (Logger.close st).rotating = st.rotating := by
    unfold Logger.close
    dsimp only
    split <;> rfl
  simp [Logger.log, hc, hr, h]

/-- Witness for `log_after_close_noop` at a concrete open logger state. -/
theorem log_after_close_noop_witness :
    Logger.log (Logger.close { closed := false, stream := some [] }) levelINFO none "msg"
        ⟨2020, 1, 1, 0, 0, 0, 0⟩ =
      (Logger.close { closed := false, stream := some [] }, none, false) :=
  log_after_close_noop { closed := false, stream := some [] } levelINFO none "msg"
    ⟨2020, 1, 1, 0, 0, 0, 0⟩ rfl

/-! ## C5 — stream-error recovery protocol -/

/-- C5: on a stream error the logger closes the broken handle (swallowing
secondary errors in its try/catch), clears the handle reference, and
schedules exactly one pending retry with the fixed 10-second delay;
scheduling a retry while a timer is outstanding is a no-op; a firing retry
with a failing reopen reschedules the same delay, and with a succeeding
reopen installs a fresh handle; `close()` cancels the pending timer, so a
timer can never fire (and hence no reopen runs) after the logger is closed.
The error callback is a total function of the state — nothing propagates to
the log-call caller. -/
theorem recovery_retry_protocol (st st2 st3 : LoggerState) (ok : Bool)
    (h1 : st.timer = none)
    (h2 : st2.closed = false) (h3 : st2.fsUnsupported = false) (h4 : st2.stream = none)
    (h5 : st2.timer = some retryDelayMs) :
    (Logger.handleError st).stream = none ∧
    (Logger.handleError st).timer = some retryDelayMs ∧
    Logger.retry (Logger.retry st3) = Logger.retry st3 ∧
    (timerFire st2 false).timer = some retryDelayMs ∧
    (timerFire st2 true).stream = some [] ∧
    (Logger.close st3).timer = none ∧
    timerFire (Logger.close st3) ok = Logger.close st3 := by
  have hct : (Logger.close st3).timer = none := by
    unfold Logger.close
    dsimp only
    split <;> rfl
  refine ⟨?_, ?_, ?_, ?_, ?_, hct, ?_⟩
  · simp [Logger.handleError, Logger.retry, h1]
  · simp [Logger.handleError, Logger.retry, h1]
  · cases h : st3.timer <;> simp [Logger.retry, h]
  · simp [timerFire, h5, Logger.reopen, h2, h3, h4, Logger.retry]
  · simp [timerFire, h5, Logger.reopen, h2, h3, h4]
  · simp [timerFire, hct]

/-- Witness for `recovery_retry_protocol` at concrete states: an open logger
whose stream just broke, and a closed one. -/
theorem recovery_retry_protocol_witness :
    (Logger.handleError { closed := false, stream := some ["m"] }).stream = none ∧
    (Logger.handleError { closed := false, stream := some ["m"] }).timer = some retryDelayMs ∧
    Logger.retry (Logger.retry { closed := false }) = Logger.retry { closed := false } ∧
    (timerFire { closed := false, timer := some retryDelayMs } false).timer = some retryDelayMs ∧
    (timerFire { closed := false, timer := some retryDelayMs } true).stream = some [] ∧
    (Logger.close { closed := false }).timer = none ∧
    timerFire (Logger.close { closed := false }) true = Logger.close { closed := false } :=
  recovery_retry_protocol { closed := false, stream := some ["m"] }
    { closed := false, timer := some retryDelayMs } { closed := false } true
    rfl rfl rfl rfl rfl

/-! ## C9 — context caching -/

/-- Appending a fresh binding is found by lookup when the key was absent. -/
theorem lookup_append_single {α β : Type} [BEq α] [LawfulBEq α]
    (l : List (α × β)) (k : α) (v : β) (h : l.lookup k = none) :
    (l ++ [(k, v)]).lookup k = some v := by
  induction l with
  | nil => simp [List.lookup]
  | cons p l ih =>
    obtain ⟨a, b⟩ := p
    rw [List.cons_append, List.lookup]
    rw [List.lookup] at h
    cases hk : k == a with
    | true => rw [hk] at h; simp at h
    | false => rw [hk] at h; exact ih h

/-- C9 counterexample: requesting the same module twice through the
`context` method of a context returns two distinct objects —
`LoggerContext.context` allocates a `new LoggerContext` on every call and
never consults the cache held by the Logger, so the part of the claim
reading "including when the second request goes through a previously
obtained context context method" fails. -/
theorem context_via_context_counterexample :
    (LoggerContext.context (⟨[], 0⟩ : CtxState) "net").2.id = 0 ∧
    (LoggerContext.context (LoggerContext.context (⟨[], 0⟩ : CtxState) "net").1 "net").2.id = 1 :=
  ⟨rfl, rfl⟩

/-- C9 amended: `Logger.context` is lazy and idempotent per module name —
a second request returns the identical cached `LoggerContext` and leaves
the cache unchanged — but `LoggerContext.context` constructs a fresh
`LoggerContext` on every call (bypassing the cache). -/
theorem context_caching (s : CtxState) (m : String) :
    (Logger.context (Logger.context s m).1 m).2 = (Logger.context s m).2 ∧
    (Logger.context (Logger.context s m).1 m).1 = (Logger.context s m).1 ∧
    (LoggerContext.context s m).2 = ⟨s.nextId, m⟩ ∧
    (LoggerContext.context s m).1.nextId = s.nextId + 1 := by
  refine ⟨?_, ?_, rfl, rfl⟩ <;>
  · cases h : s.cache.lookup m with
    | some c => simp [Logger.context, h]
    | none =>
      have h2 : ((s.cache ++ [(m, (⟨s.nextId, m⟩ : LoggerCtx))]).lookup m)
          = some (⟨s.nextId, m⟩ : LoggerCtx) :=
        lookup_append_single s.cache m _ h
      simp [Logger.context, h, h2]

/-! ## C4 — rotate() guards -/

/-- C4: `rotate()` called while a rotation is in flight, or with no file path
configured, or on an unsupported filesystem, returns the "not rotated"
signal (`null`) immediately without mutating any logger state — so at most
one rotation executes at a time per Logger; otherwise it returns the
archive path `dir/base_<dateString>ext`. -/
theorem rotate_guard_noop (st : LoggerState) (d : DateTime) :
    (st.rotating = true ∨ st.filename = none ∨ st.fsUnsupported = true →
      Logger.rotate st d = (st, none)) ∧
    (∀ fn, st.rotating = false → st.filename = some fn → st.fsUnsupported = false →
      (Logger.rotate st d).2 =
        some (pathJoin (dirname fn)
          (basenameDrop fn (extname fn) ++ "_" ++ dateString d ++ extname fn))) := by
  constructor
  · intro h
    rcases h with h | h | h
    · simp [Logger.rotate, rotateBegin, h]
    · cases hr : st.rotating <;> simp [Logger.rotate, rotateBegin, hr, h]
    · cases hr : st.rotating
      · cases hf : st.filename <;> simp [Logger.rotate, rotateBegin, hr, hf, h]
      · simp [Logger.rotate, rotateBegin, hr]
  · intro fn h1 h2 h3
    simp [Logger.rotate, rotateBegin, h1, h2, h3]

/-- Witness for `rotate_guard_noop`: a rotating state is a no-op, and an
idle configured state returns the timestamped archive path. -/
theorem rotate_guard_noop_witness :
    Logger.rotate { rotating := true, filename := some "a/app.log" } ⟨2019, 10, 28, 19, 1, 15, 122⟩
      = ({ rotating := true, filename := some "a/app.log" }, none) ∧
    (Logger.rotate { closed := false, filename := some "a/app.log", stream := some [] }
        ⟨2019, 10, 28, 19, 1, 15, 122⟩).2
      = some (pathJoin (dirname "a/app.log")
          (basenameDrop "a/app.log" (extname "a/app.log") ++ "_"
            ++ dateString ⟨2019, 10, 28, 19, 1, 15, 122⟩ ++ extname "a/app.log")) :=
  ⟨(rotate_guard_noop { rotating := true, filename := some "a/app.log" }
      ⟨2019, 10, 28, 19, 1, 15, 122⟩).1 (Or.inl rfl),
   (rotate_guard_noop { closed := false, filename := some "a/app.log", stream := some [] }
      ⟨2019, 10, 28, 19, 1, 15, 122⟩).2 "a/app.log" rfl rfl rfl⟩

/-! ## C3 — write path byte accounting and rotation threshold -/

/-- C3 counterexample: the write path triggers `rotate()` already when the
cumulative byte count *equals* `maxFileSize` (`this._fileSize >=
this.maxFileSize`, src/lib/logger.js:575), not only when it strictly
exceeds it.  Here the written line is exactly 26 bytes, the counter lands
exactly on `maxFileSize = 26`, and rotation is triggered. -/
theorem writeStream_threshold_counterexample :
    ((Logger.writeStream { closed := false, stream := some [], maxFileSize := 26 }
        levelINFO none "" ⟨2020, 1, 1, 0, 0, 0, 0⟩).2 = true) ∧
    ((Logger.writeStream { closed := false, stream := some [], maxFileSize := 26 }
        levelINFO none "" ⟨2020, 1, 1, 0, 0, 0, 0⟩).1.fileSize = 26) ∧
    ¬ (26 > 26) := by
  refine ⟨by decide, by decide, by omega⟩

/-- C3 amended: for every successful direct file write, the write path adds
the message length to the cumulative byte count, appends the message to the
handle, and invokes `rotate()` (fire-and-forget — the promise is not
awaited, so the caller never blocks) exactly when the new cumulative count
is greater than or equal to `maxFileSize`. -/
theorem writeStream_threshold (st : LoggerState) (level : Nat) (module : Option String)
    (fmtArgs : String) (now : DateTime) (c : List String)
    (h1 : st.rotating = false) (h2 : st.closing = false) (h3 : st.stream = some c)
    (h4 : level ≤ 5) :
    (Logger.writeStream st level module fmtArgs now).1.fileSize
        = st.fileSize + (fileLine level module fmtArgs now).length ∧
    (Logger.writeStream st level module fmtArgs now).1.stream
        = some (c ++ [fileLine level module fmtArgs now]) ∧
    ((Logger.writeStream st level module fmtArgs now).2 = true ↔
      st.maxFileSize ≤ st.fileSize + (fileLine level module fmtArgs now).length) := by
  have h5 : ¬ 5 < level := by omega
  unfold Logger.writeStream
  simp [h1, h2, h3, h5]
  split <;> simp_all

/-- Witness for `writeStream_threshold` at a concrete open logger. -/
theorem writeStream_threshold_witness :
    (Logger.writeStream { closed := false, stream := some [], maxFileSize := 100 }
        levelINFO none "hi" ⟨2020, 1, 1, 0, 0, 0, 0⟩).1.fileSize
      = ({ closed := false, stream := some [], maxFileSize := 100 } : LoggerState).fileSize
          + (fileLine levelINFO none "hi" ⟨2020, 1, 1, 0, 0, 0, 0⟩).length ∧
    (Logger.writeStream { closed := false, stream := some [], maxFileSize := 100 }
        levelINFO none "hi" ⟨2020, 1, 1, 0, 0, 0, 0⟩).1.stream
      = some ([] ++ [fileLine levelINFO none "hi" ⟨2020, 1, 1, 0, 0, 0, 0⟩]) ∧
    ((Logger.writeStream { closed := false, stream := some [], maxFileSize := 100 }
        levelINFO none "hi" ⟨2020, 1, 1, 0, 0, 0, 0⟩).2 = true ↔
      ({ closed := false, stream := some [], maxFileSize := 100 } : LoggerState).maxFileSize
        ≤ ({ closed := false, stream := some [], maxFileSize := 100 } : LoggerState).fileSize
          + (fileLine levelINFO none "hi" ⟨2020, 1, 1, 0, 0, 0, 0⟩).length) :=
  writeStream_threshold { closed := false, stream := some [], maxFileSize := 100 }
    levelINFO none "hi" ⟨2020, 1, 1, 0, 0, 0, 0⟩ [] rfl rfl rfl (by decide)

/-! ## C8 — configuration validation -/

/-- C8 counterexample: `set({level: "debug", maxFileSize: 2^32})` throws —
although `2^32` is a non-negative integer, `(x >>> 0) === x` holds only
below `2^32` — and the thrown call has already applied the earlier `level`
option, so the configuration is *not* unchanged on failure. -/
theorem set_uint32_counterexample :
    (Logger.set {} { level := some "debug", maxFileSize := some 4294967296 }).2
        = some "Assertion failed." ∧
    (Logger.set {} { level := some "debug", maxFileSize := some 4294967296 }).1.level
        = levelDEBUG ∧
    ({} : LoggerState).level = levelNONE := by
  refine ⟨by decide, by decide, rfl⟩

/-- C8 amended: configuration errors surface synchronously — `setLevel` with
a name outside the fixed level set throws before assigning, leaving the
state unchanged; `set` accepts `maxFileSize`/`maxFiles` exactly for
integers in `[0, 2^32)` and throws on values outside that range (including
non-negative integers `≥ 2^32`); option blocks run in source order, so a
throwing numeric option leaves options validated earlier in the same call
already applied (state is unchanged only when no earlier option was
given). -/
theorem config_validation (st : LoggerState) (name : String) (x y : Int)
    (hc : st.closed = true)
    (hn : levelOfName (upperStr name) = none)
    (hx0 : 0 ≤ x) (hx1 : x < 4294967296)
    (hy : y < 0 ∨ 4294967296 ≤ y) :
    Logger.setLevel st name = (st, some "Invalid log level.") ∧
    Logger.set st { maxFileSize := some x, maxFiles := some x } =
      ({ st with maxFileSize := x.toNat, maxFiles := x.toNat }, none) ∧
    (Logger.set st { maxFileSize := some y }).2 = some "Assertion failed." ∧
    (Logger.set st { maxFileSize := some y }).1 = st := by
  have hxb : (decide (0 ≤ x) && decide (x < 4294967296)) = true := by
    simp [hx0, hx1]
  have hyb : (decide (0 ≤ y) && decide (y < 4294967296)) = false := by
    rcases hy with hy | hy <;> simp <;> omega
  refine ⟨?_, ?_, ?_, ?_⟩
  · simp [Logger.setLevel, hn]
  · simp [Logger.set, hc, setStep, setOptLevel, setOptColors, setOptTimestamps,
      setOptConsole, setOptFilename, setOptMaxFileSize, setOptMaxFiles, hxb]
  · simp [Logger.set, hc, setStep, setOptLevel, setOptColors, setOptTimestamps,
      setOptConsole, setOptFilename, setOptMaxFileSize, setOptMaxFiles, hyb]
  · simp [Logger.set, hc, setStep, setOptLevel, setOptColors, setOptTimestamps,
      setOptConsole, setOptFilename, setOptMaxFileSize, setOptMaxFiles, hyb]

/-- Witness for `config_validation` at concrete inputs. -/
theorem config_validation_witness :
    Logger.setLevel {} "loud" = ({}, some "Invalid log level.") ∧
    Logger.set {} { maxFileSize := some 123, maxFiles := some 123 } =
      ({ maxFileSize := (123 : Int).toNat, maxFiles := (123 : Int).toNat }, none) ∧
    (Logger.set {} { maxFileSize := some (-1) }).2 = some "Assertion failed." ∧
    (Logger.set {} { maxFileSize := some (-1) }).1 = {} :=
  config_validation {} "loud" 123 (-1) rfl (by decide) (by decide) (by decide)
    (Or.inl (by decide))

/-! ## C1 — buffering across the rotation boundary -/

/-- While `rotating` is set, each write appends its formatted line to the
pending buffer and touches nothing else. -/
theorem applyWrite_rotating (s : LoggerState) (w : WriteReq)
    (hr : s.rotating = true) (hw : w.level ≤ 5) :
    applyWrite s w = { s with buffer := s.buffer ++ [reqLine w] } := by
  have h5 : ¬ 5 < w.level := by omega
  simp [applyWrite, Logger.writeStream, hr, h5, reqLine]

/-- Folding a sequence of writes over a rotating state appends exactly their
formatted lines, in order, to the pending buffer. -/
theorem foldl_applyWrite_rotating (ws : List WriteReq) (s : LoggerState)
    (hr : s.rotating = true) (hl : ∀ w ∈ ws, w.level ≤ 5) :
    ws.foldl applyWrite s = { s with buffer := s.buffer ++ ws.map reqLine } := by
  induction ws generalizing s with
  | nil => simp
  | cons w ws ih =>
    rw [List.foldl_cons, applyWrite_rotating s w hr (hl w (by simp))]
    rw [ih { s with buffer := s.buffer ++ [reqLine w] } hr (fun v hv => hl v (by simp [hv]))]
    simp

/-- The drain loop writes the whole buffer, in order, and adds each drained
length of each message to the byte counter. -/
theorem drainLoop_eq (b : List String) (s : List String) (fs : Nat) :
    drainLoop s fs b = (s ++ b, fs + (b.map String.length).sum) := by
  induction b generalizing s fs with
  | nil => simp [drainLoop]
  | cons m b ih => simp [drainLoop, ih, List.append_assoc]; omega

/-- C1: writes issued while a rotation is in progress are appended to the
pending buffer and written to no file handle; when the rotation reopens the
handle it drains the buffer in FIFO order into the new handle, adding each
length of each drained message to the byte counter.  The renamed archive holds
exactly the `c` messages written before the rotation and the post-rotation
file holds exactly the buffered lines in original order, so no message is
lost or duplicated across the rotation boundary. -/
theorem rotation_buffer_drain (st : LoggerState) (d : DateTime) (ws : List WriteReq)
    (fn : String) (c : List String)
    (h1 : st.rotating = false) (h2 : st.filename = some fn) (h3 : st.fsUnsupported = false)
    (h4 : st.stream = some c) (h5 : ∀ w ∈ ws, w.level ≤ 5) :
    (rotateBegin st d).2
        = some (archiveName (dirname fn) (basenameDrop fn (extname fn)) (extname fn) d, c) ∧
    (rotateBegin st d).1.stream = none ∧
    (ws.foldl applyWrite (rotateBegin st d).1).stream = none ∧
    (ws.foldl applyWrite (rotateBegin st d).1).buffer = st.buffer ++ ws.map reqLine ∧
    (rotateEnd (ws.foldl applyWrite (rotateBegin st d).1)).buffer = [] ∧
    (rotateEnd (ws.foldl applyWrite (rotateBegin st d).1)).stream
        = some (st.buffer ++ ws.map reqLine) ∧
    (rotateEnd (ws.foldl applyWrite (rotateBegin st d).1)).fileSize
        = ((st.buffer ++ ws.map reqLine).map String.length).sum ∧
    (rotateEnd (ws.foldl applyWrite (rotateBegin st d).1)).rotating = false := by
  have hB : (rotateBegin st d).1 =
      { st with rotating := true, timer := none, stream := none, fileSize := 0, closed := true } := by
    simp [rotateBegin, h1, h2, h3, Logger.close]
  have hBr : (rotateBegin st d).2
      = some (archiveName (dirname fn) (basenameDrop fn (extname fn)) (extname fn) d, c) := by
    simp [rotateBegin, h1, h2, h3, h4, archiveName]
  have hW : ws.foldl applyWrite (rotateBegin st d).1 =
      { st with
        rotating := true
        timer := none
        stream := none
        fileSize := 0
        closed := true
        buffer := st.buffer ++ ws.map reqLine } := by
    rw [hB, foldl_applyWrite_rotating ws _ rfl h5]
  have hE : rotateEnd (ws.foldl applyWrite (rotateBegin st d).1) =
      { st with
        rotating := false
        timer := none
        fileSize := ((st.buffer ++ ws.map reqLine).map String.length).sum
        closed := false
        buffer := []
        stream := some (st.buffer ++ ws.map reqLine) } := by
    rw [hW]
    simp [rotateEnd, Logger.openUp, h2, h3, drainAll, drainLoop_eq]
  refine ⟨hBr, by rw [hB], by rw [hW], by rw [hW], by rw [hE], by rw [hE], by rw [hE], by rw [hE]⟩

/-- Witness for `rotation_buffer_drain`: one write lands in the buffer while
rotating and is drained into the fresh file. -/
theorem rotation_buffer_drain_witness :
    (rotateBegin { closed := false, filename := some "a/app.log", stream := some ["m1"] }
        ⟨2019, 10, 28, 19, 1, 15, 122⟩).2
      = some (archiveName (dirname "a/app.log") (basenameDrop "a/app.log" (extname "a/app.log"))
          (extname "a/app.log") ⟨2019, 10, 28, 19, 1, 15, 122⟩, ["m1"]) ∧
    (rotateBegin { closed := false, filename := some "a/app.log", stream := some ["m1"] }
        ⟨2019, 10, 28, 19, 1, 15, 122⟩).1.stream = none ∧
    (([⟨levelINFO, none, "hello", ⟨2020, 1, 1, 0, 0, 0, 0⟩⟩] : List WriteReq).foldl applyWrite
      (rotateBegin { closed := false, filename := some "a/app.log", stream := some ["m1"] }
        ⟨2019, 10, 28, 19, 1, 15, 122⟩).1).stream = none ∧
    (([⟨levelINFO, none, "hello", ⟨2020, 1, 1, 0, 0, 0, 0⟩⟩] : List WriteReq).foldl applyWrite
      (rotateBegin { closed := false, filename := some "a/app.log", stream := some ["m1"] }
        ⟨2019, 10, 28, 19, 1, 15, 122⟩).1).buffer
      = ({ closed := false, filename := some "a/app.log", stream := some ["m1"] } : LoggerState).buffer
        ++ ([⟨levelINFO, none, "hello", ⟨2020, 1, 1, 0, 0, 0, 0⟩⟩] : List WriteReq).map reqLine ∧
    (rotateEnd (([⟨levelINFO, none, "hello", ⟨2020, 1, 1, 0, 0, 0, 0⟩⟩] : List WriteReq).foldl applyWrite
      (rotateBegin { closed := false, filename := some "a/app.log", stream := some ["m1"] }
        ⟨2019, 10, 28, 19, 1, 15, 122⟩).1)).buffer = [] ∧
    (rotateEnd (([⟨levelINFO, none, "hello", ⟨2020, 1, 1, 0, 0, 0, 0⟩⟩] : List WriteReq).foldl applyWrite
      (rotateBegin { closed := false, filename := some "a/app.log", stream := some ["m1"] }
        ⟨2019, 10, 28, 19, 1, 15, 122⟩).1)).stream
      = some (({ closed := false, filename := some "a/app.log", stream := some ["m1"] } : LoggerState).buffer
        ++ ([⟨levelINFO, none, "hello", ⟨2020, 1, 1, 0, 0, 0, 0⟩⟩] : List WriteReq).map reqLine) ∧
    (rotateEnd (([⟨levelINFO, none, "hello", ⟨2020, 1, 1, 0, 0, 0, 0⟩⟩] : List WriteReq).foldl applyWrite
      (rotateBegin { closed := false, filename := some "a/app.log", stream := some ["m1"] }
        ⟨2019, 10, 28, 19, 1, 15, 122⟩).1)).fileSize
      = ((({ closed := false, filename := some "a/app.log", stream := some ["m1"] } : LoggerState).buffer
        ++ ([⟨levelINFO, none, "hello", ⟨2020, 1, 1, 0, 0, 0, 0⟩⟩] : List WriteReq).map reqLine).map
          String.length).sum ∧
    (rotateEnd (([⟨levelINFO, none, "hello", ⟨2020, 1, 1, 0, 0, 0, 0⟩⟩] : List WriteReq).foldl applyWrite
      (rotateBegin { closed := false, filename := some "a/app.log", stream := some ["m1"] }
        ⟨2019, 10, 28, 19, 1, 15, 122⟩).1)).rotating = false :=
  rotation_buffer_drain { closed := false, filename := some "a/app.log", stream := some ["m1"] }
    ⟨2019, 10, 28, 19, 1, 15, 122⟩ [⟨levelINFO, none, "hello", ⟨2020, 1, 1, 0, 0, 0, 0⟩⟩]
    "a/app.log" ["m1"] rfl rfl rfl rfl (by intro w hw; simp at hw; subst hw; decide)

/-! ## C2 — retention pruning -/

/-- C2 counterexample: with `maxFiles = 0` and one matching archive, the
claim requires retaining `min(1, 0) = 0` files (deleting the archive), but
`oldFiles.slice(0, -1 * 0)` is `slice(0, 0)`, the empty array, so nothing
is deleted and the archive is retained. -/
theorem prune_zero_maxFiles_counterexample :
    Logger.prune 0 ["app_2020.log"] "app" ".log" = [] ∧
    archiveMatches ["app_2020.log"] "app" ".log" = ["app_2020.log"] := by
  exact ⟨by decide, by decide⟩

/-- C2 amended: for every `maxFiles ≥ 1`, `prune` deletes the
lexicographically smallest `archiveCount - maxFiles` matching archives
(oldest first, by the timestamp ordering) and retains exactly
`min(archiveCount, maxFiles)` — the most recent ones; with `maxFiles = 0`
the `slice(0, -0)` quirk deletes nothing. -/
theorem prune_retention (maxFiles : Nat) (files : List String) (base ext : String)
    (h : 1 ≤ maxFiles) :
    Logger.prune maxFiles files base ext =
      (sortJS (archiveMatches files base ext)).take
        ((archiveMatches files base ext).length - maxFiles) ∧
    (archiveMatches files base ext).length - (Logger.prune maxFiles files base ext).length
      = min (archiveMatches files base ext).length maxFiles ∧
    List.Sorted jsLe (sortJS (archiveMatches files base ext)) ∧
    (sortJS (archiveMatches files base ext)).Perm (archiveMatches files base ext) ∧
    sortJS (archiveMatches files base ext) =
      Logger.prune maxFiles files base ext ++
        (sortJS (archiveMatches files base ext)).drop
          ((archiveMatches files base ext).length - maxFiles) := by
  have hperm : (sortJS (archiveMatches files base ext)).Perm (archiveMatches files base ext) :=
    List.perm_insertionSort _ _
  have hsorted : List.Sorted jsLe (sortJS (archiveMatches files base ext)) :=
    List.sorted_insertionSort _ _
  have hlen : (sortJS (archiveMatches files base ext)).length
      = (archiveMatches files base ext).length := hperm.length_eq
  have hk : maxFiles ≠ 0 := by omega
  have hmn : (archiveRegex base ext).isNone = true → archiveMatches files base ext = [] := by
    intro hx
    unfold archiveMatches
    cases hy : archiveRegex base ext
    · rfl
    · rw [hy] at hx
      simp at hx
  by_cases hle : (archiveMatches files base ext).length ≤ maxFiles
  · have hp : Logger.prune maxFiles files base ext = [] := by
      by_cases hnone : (archiveRegex base ext).isNone = true
      · simp [Logger.prune, hnone]
      · simp [Logger.prune, hnone, hle]
    have hz : (archiveMatches files base ext).length - maxFiles = 0 := by omega
    refine ⟨?_, ?_, hsorted, hperm, ?_⟩
    · simp [hp, hz]
    · simp [hp]; omega
    · simp [hp, hz]
  · have hnone : ¬ (archiveRegex base ext).isNone = true := by
      intro hx
      exact hle (by simp [hmn hx])
    have hp : Logger.prune maxFiles files base ext =
        (sortJS (archiveMatches files base ext)).take
          ((archiveMatches files base ext).length - maxFiles) := by
      simp [Logger.prune, hnone, hle, jsSliceNegEnd, hk, hlen]
    have hplen : (Logger.prune maxFiles files base ext).length
        = (archiveMatches files base ext).length - maxFiles := by
      rw [hp, List.length_take, hlen]
      omega
    refine ⟨hp, ?_, hsorted, hperm, ?_⟩
    · rw [hplen]; omega
    · rw [hp, List.take_append_drop]

/-- Witness for `prune_retention`, also realizing the scenario of the spec: with
`maxFiles = 2` and archives timestamped `2020 < 2021 < 2022`, only the
oldest is deleted and `2021`, `2022` remain (the active `app.log` is not a
candidate). -/
theorem prune_retention_witness :
    (Logger.prune 2 ["app.log", "app_2022.log", "app_2020.log", "app_2021.log"] "app" ".log" =
      (sortJS (archiveMatches ["app.log", "app_2022.log", "app_2020.log", "app_2021.log"]
          "app" ".log")).take
        ((archiveMatches ["app.log", "app_2022.log", "app_2020.log", "app_2021.log"]
          "app" ".log").length - 2) ∧
    (archiveMatches ["app.log", "app_2022.log", "app_2020.log", "app_2021.log"]
        "app" ".log").length -
      (Logger.prune 2 ["app.log", "app_2022.log", "app_2020.log", "app_2021.log"]
        "app" ".log").length
      = min (archiveMatches ["app.log", "app_2022.log", "app_2020.log", "app_2021.log"]
          "app" ".log").length 2 ∧
    List.Sorted jsLe
      (sortJS (archiveMatches ["app.log", "app_2022.log", "app_2020.log", "app_2021.log"]
        "app" ".log")) ∧
    (sortJS (archiveMatches ["app.log", "app_2022.log", "app_2020.log", "app_2021.log"]
        "app" ".log")).Perm
      (archiveMatches ["app.log", "app_2022.log", "app_2020.log", "app_2021.log"] "app" ".log") ∧
    sortJS (archiveMatches ["app.log", "app_2022.log", "app_2020.log", "app_2021.log"]
        "app" ".log") =
      Logger.prune 2 ["app.log", "app_2022.log", "app_2020.log", "app_2021.log"] "app" ".log" ++
        (sortJS (archiveMatches ["app.log", "app_2022.log", "app_2020.log", "app_2021.log"]
          "app" ".log")).drop
          ((archiveMatches ["app.log", "app_2022.log", "app_2020.log", "app_2021.log"]
            "app" ".log").length - 2)) ∧
    Logger.prune 2 ["app.log", "app_2022.log", "app_2020.log", "app_2021.log"] "app" ".log"
      = ["app_2020.log"] ∧
    (sortJS (archiveMatches ["app.log", "app_2022.log", "app_2020.log", "app_2021.log"]
        "app" ".log")).drop 1 = ["app_2021.log", "app_2022.log"] :=
  ⟨prune_retention 2 ["app.log", "app_2022.log", "app_2020.log", "app_2021.log"] "app" ".log"
      (by omega),
   by decide, by decide⟩

/-! ## C10 — pruning and the active log file -/

/-- A safe character is neither a quantifier nor an unmodelled
metacharacter. -/
theorem safeChar_split {c : Char} (h : safeChar c = true) :
    isQuantChar c = false ∧ isUnmodeled c = false := by
  unfold safeChar at h
  cases hq : isQuantChar c <;> cases hu : isUnmodeled c <;> simp [hq, hu] at h ⊢

/-- A run of safe characters cannot start with a quantifier. -/
theorem headNotQuant_of_all_safe {l : List Char} (h : l.all safeChar = true) :
    headNotQuant l = true := by
  cases l with
  | nil => rfl
  | cons c t =>
    have hc : safeChar c = true := by
      simp [List.all_cons] at h
      exact h.1
    simp [headNotQuant, (safeChar_split hc).1]

/-- Lone safe characters parse to a bare atom. -/
theorem parseRegex_single (c : Char) (h1 : isQuantChar c = false) (h2 : isUnmodeled c = false) :
    parseRegex [c] = some [RPiece.once (atomOf c)] := by
  simp [parseRegex, h1, h2]

/-- A safe character not followed by a quantifier parses to a bare atom
followed by the parse of the rest. -/
theorem parseRegex_cons_notquant (c r : Char) (t : List Char)
    (h1 : isQuantChar c = false) (h2 : isUnmodeled c = false) (hr : isQuantChar r = false) :
    parseRegex (c :: r :: t) = (parseRegex (r :: t)).map (fun ps => RPiece.once (atomOf c) :: ps) := by
  have hr1 : ¬ r = '?' := by intro h; subst h; simp [isQuantChar] at hr
  have hr2 : ¬ r = '*' := by intro h; subst h; simp [isQuantChar] at hr
  have hr3 : ¬ r = '+' := by intro h; subst h; simp [isQuantChar] at hr
  simp [parseRegex, h1, h2, hr1, hr2, hr3]

/-- A safe character followed by a non-lazy `*` parses to a starred atom. -/
theorem parseRegex_starArm (c : Char) (t : List Char)
    (h1 : isQuantChar c = false) (h2 : isUnmodeled c = false) (ht : headNotQuant t = true) :
    parseRegex (c :: '*' :: t) = (parseRegex t).map (fun ps => RPiece.star (atomOf c) :: ps) := by
  cases t with
  | nil => simp [parseRegex, h1, h2]
  | cons r t2 =>
    have hr1 : ¬ r = '?' := by
      intro h
      subst h
      simp [headNotQuant, isQuantChar] at ht
    simp [parseRegex, h1, h2, hr1]

/-- A block of safe characters parses to bare atoms in front of whatever the
rest parses to, provided the rest does not begin with a quantifier. -/
theorem parseRegex_safe_append (l : List Char) (rest : List Char)
    (hl : l.all safeChar = true) (hr : headNotQuant rest = true) :
    parseRegex (l ++ rest) =
      (parseRegex rest).map (fun ps => l.map (fun c => RPiece.once (atomOf c)) ++ ps) := by
  induction l with
  | nil => cases h : parseRegex rest <;> simp [h]
  | cons c l' ih =>
    simp only [List.all_cons, Bool.and_eq_true] at hl
    obtain ⟨hc, hl'⟩ := hl
    obtain ⟨hc1, hc2⟩ := safeChar_split hc
    have hstep : parseRegex (c :: (l' ++ rest)) =
        (parseRegex (l' ++ rest)).map (fun ps => RPiece.once (atomOf c) :: ps) := by
      cases hlr : l' ++ rest with
      | nil => simpa [hlr] using parseRegex_single c hc1 hc2
      | cons r t =>
        have hrq : isQuantChar r = false := by
          cases l' with
          | nil =>
            simp only [List.nil_append] at hlr
            subst hlr
            simp only [headNotQuant, Bool.not_eq_true'] at hr
            exact hr
          | cons c2 l'' =>
            simp at hlr
            have hc2s : safeChar c2 = true := by
              simp [List.all_cons] at hl'
              exact hl'.1
            rw [← hlr.1]
            exact (safeChar_split hc2s).1
        exact parseRegex_cons_notquant c r t hc1 hc2 hrq
    rw [List.cons_append, hstep, ih hl']
    cases h : parseRegex rest <;> simp [h]

/-- For `base`/`ext` made of safe characters, the archive regular expression
parses to literal/wildcard atoms for `base`, a literal underscore, `.*`,
and literal/wildcard atoms for `ext` — the pattern the prune comment
intends. -/
theorem archiveRegex_safe (base ext : String)
    (hb : base.data.all safeChar = true) (he : ext.data.all safeChar = true) :
    archiveRegex base ext =
      some (base.data.map (fun c => RPiece.once (atomOf c)) ++
        RPiece.once (RAtom.lit '_') :: RPiece.star RAtom.dot ::
        ext.data.map (fun c => RPiece.once (atomOf c))) := by
  unfold archiveRegex patternChars
  rw [parseRegex_safe_append base.data ('_' :: '.' :: '*' :: ext.data) hb rfl]
  rw [parseRegex_cons_notquant '_' '.' ('*' :: ext.data) (by decide) (by decide) (by decide)]
  rw [parseRegex_starArm '.' ext.data (by decide) (by decide) (headNotQuant_of_all_safe he)]
  have hext := parseRegex_safe_append ext.data [] he rfl
  rw [List.append_nil] at hext
  rw [hext]
  simp [parseRegex, atomOf]

/-- The measure `minLen` adds over pattern concatenation. -/
theorem minLen_append (a b : List RPiece) : minLen (a ++ b) = minLen a + minLen b := by
  induction a with
  | nil => simp [minLen]
  | cons t a ih => cases t <;> simp [minLen, ih] <;> omega

/-- Every pattern character mapped to a bare atom costs one subject
character. -/
theorem minLen_map_once (l : List Char) :
    minLen (l.map fun c => RPiece.once (atomOf c)) = l.length := by
  induction l with
  | nil => simp [minLen]
  | cons c l ih => simp [minLen, ih]

/-- Consuming a run of an atom only shortens the subject. -/
theorem atomRuns_length {a : RAtom} :
    ∀ {ds t : List Char}, t ∈ atomRuns a ds → t.length ≤ ds.length := by
  intro ds
  induction ds with
  | nil =>
    intro t ht
    simp [atomRuns] at ht
    simp [ht]
  | cons d ds ih =>
    intro t ht
    simp only [atomRuns, List.mem_cons] at ht
    rcases ht with rfl | ht
    · simp
    · have htm : t ∈ atomRuns a ds := by
        by_cases hm : amatch a d = true
        · simpa [hm] using ht
        · simp [hm] at ht
      have := ih htm
      simp
      omega

/-- A successful anchored match consumes at least `minLen` characters. -/
theorem rmatchAt_minLen (ps : List RPiece) :
    ∀ ds, rmatchAt ps ds = true → minLen ps ≤ ds.length := by
  induction ps with
  | nil => intro ds _; simp [minLen]
  | cons t ps ih =>
    intro ds h
    cases t with
    | once a =>
      cases ds with
      | nil => simp [rmatchAt] at h
      | cons d ds2 =>
        simp [rmatchAt] at h
        have := ih ds2 h.2
        simp [minLen]
        omega
    | opt a =>
      cases ds with
      | nil =>
        rw [rmatchAt] at h
        simp only [Bool.or_eq_true] at h
        rcases h with h | h
        · simpa [minLen] using ih [] h
        · simp at h
      | cons d ds2 =>
        rw [rmatchAt] at h
        simp only [Bool.or_eq_true, Bool.and_eq_true] at h
        rcases h with h | ⟨_, h⟩
        · simpa [minLen] using ih (d :: ds2) h
        · have := ih ds2 h
          simp [minLen]
          omega
    | star a =>
      simp only [rmatchAt, List.any_eq_true] at h
      obtain ⟨t, ht, hm⟩ := h
      have h1 := ih t hm
      have h2 := atomRuns_length ht
      simpa [minLen] using le_trans h1 h2
    | plus a =>
      cases ds with
      | nil => simp [rmatchAt] at h
      | cons d ds2 =>
        simp only [rmatchAt, Bool.and_eq_true, List.any_eq_true] at h
        obtain ⟨_, t, ht, hm⟩ := h
        have h1 := ih t hm
        have h2 := atomRuns_length ht
        simp [minLen]
        omega

/-- An unanchored match also needs `minLen` characters in the subject. -/
theorem rtest_minLen (ps : List RPiece) :
    ∀ ds, rtest ps ds = true → minLen ps ≤ ds.length := by
  intro ds
  induction ds with
  | nil => intro h; exact rmatchAt_minLen ps [] h
  | cons d ds ih =>
    intro h
    rw [rtest] at h
    simp only [Bool.or_eq_true] at h
    rcases h with h | h
    · exact rmatchAt_minLen ps (d :: ds) h
    · have := ih h
      simp
      omega

/-- Under the literal parse, the live file `base ++ ext` can never match:
any match needs at least `|base| + 1 + |ext|` characters, one more than the
live file name has. -/
theorem active_no_match (base ext : String) :
    rtest (base.data.map (fun c => RPiece.once (atomOf c)) ++
        RPiece.once (RAtom.lit '_') :: RPiece.star RAtom.dot ::
        ext.data.map (fun c => RPiece.once (atomOf c)))
      (base ++ ext).data = false := by
  cases h : rtest (base.data.map (fun c => RPiece.once (atomOf c)) ++
      RPiece.once (RAtom.lit '_') :: RPiece.star RAtom.dot ::
      ext.data.map (fun c => RPiece.once (atomOf c))) (base ++ ext).data with
  | false => rfl
  | true =>
    exfalso
    have hlen := rtest_minLen _ _ h
    rw [minLen_append] at hlen
    have hdata : (base ++ ext).data = base.data ++ ext.data := String.data_append base ext
    rw [hdata, List.length_append] at hlen
    simp [minLen, minLen_map_once] at hlen

/-- C10 counterexample: the source interpolates `base` into the `RegExp`
unescaped (src/lib/logger.js:226), so a quantifier in the file name keeps
its meaning.  For the log file `a_?.log` (base `a_?`, ext `.log`) the
pattern `a_?_.*.log` makes the underscore of the base optional, and the
active file itself matches; it sorts before the `_`-suffixed archives
(`.` is 0x2E, `_` is 0x5F), so once the matches exceed `maxFiles` the
active log file is the first name passed to `fs.unlink`. -/
theorem prune_deletes_active_counterexample :
    (Logger.prune 1 ["a_?.log", "a_?_2020.log", "a_?_2021.log"] "a_?" ".log").contains
        ("a_?" ++ ".log") = true ∧
    Logger.prune 1 ["a_?.log", "a_?_2020.log", "a_?_2021.log"] "a_?" ".log"
      = ["a_?.log", "a_?_2020.log"] :=
  ⟨by decide, by decide⟩

/-- C10 amended: when `base` and `ext` contain no regular-expression
metacharacters other than `.` (true of ordinary log file names), every
character of the interpolated pattern is literal (or the harmless
wildcard `.`), and `prune` never deletes the active log file
`base ++ ext`: deletion candidates must match `base_.*ext`, which needs
one more character than the live file name has.  Without that restriction
the claim fails — see `prune_deletes_active_counterexample`. -/
theorem prune_never_deletes_active (maxFiles : Nat) (files : List String) (base ext : String)
    (hb : base.data.all safeChar = true) (he : ext.data.all safeChar = true) :
    (Logger.prune maxFiles files base ext).contains (base ++ ext) = false := by
  have hre := archiveRegex_safe base ext hb he
  cases hc : (Logger.prune maxFiles files base ext).contains (base ++ ext) with
  | false => rfl
  | true =>
    exfalso
    have hmem : (base ++ ext) ∈ Logger.prune maxFiles files base ext := by
      simpa using hc
    have hsub : (base ++ ext) ∈ sortJS (archiveMatches files base ext) := by
      revert hmem
      unfold Logger.prune jsSliceNegEnd
      rw [hre]
      simp only [Option.isNone_some, Bool.false_eq_true, if_false]
      split
      · simp
      · split
        · simp
        · exact fun hx => List.take_subset _ _ hx
    have h2 : (base ++ ext) ∈ archiveMatches files base ext :=
      (List.perm_insertionSort jsLe (archiveMatches files base ext)).mem_iff.mp hsub
    have h3 : rtest (base.data.map (fun c => RPiece.once (atomOf c)) ++
        RPiece.once (RAtom.lit '_') :: RPiece.star RAtom.dot ::
        ext.data.map (fun c => RPiece.once (atomOf c))) (base ++ ext).data = true := by
      unfold archiveMatches at h2
      rw [hre] at h2
      exact (List.mem_filter.mp h2).2
    rw [active_no_match] at h3
    exact Bool.false_ne_true h3

/-- Witness for `prune_never_deletes_active` on ordinary file names. -/
theorem prune_never_deletes_active_witness :
    (Logger.prune 1 ["app.log", "app_2020.log", "app_2021.log"] "app" ".log").contains
        ("app" ++ ".log") = false :=
  prune_never_deletes_active 1 ["app.log", "app_2020.log", "app_2021.log"] "app" ".log"
    (by decide) (by decide)

/-! ## C6 — archive names: filesystem-safe timestamps, lexicographic =
chronological -/

/-- Digit characters sit in code-point range 48–57. -/
theorem dc_toNat_range (n : Nat) : 48 ≤ (dc n).toNat ∧ (dc n).toNat ≤ 57 := by
  unfold dc
  split_ifs <;> decide

/-- Every character of a padded number is a digit character. -/
theorem mem_padNat {c : Char} : ∀ {k n : Nat}, c ∈ padNat k n → ∃ m, c = dc m := by
  intro k
  induction k with
  | zero => intro n h; simp [padNat] at h
  | succ k ih =>
    intro n h
    simp only [padNat, List.mem_cons] at h
    rcases h with h | h
    · exact ⟨_, h⟩
    · exact ih h

/-- Code-point range of any character of a padded number. -/
theorem mem_padNat_toNat {c : Char} {k n : Nat} (h : c ∈ padNat k n) :
    48 ≤ c.toNat ∧ c.toNat ≤ 57 := by
  obtain ⟨m, rfl⟩ := mem_padNat h
  exact dc_toNat_range m

/-- The letter `T` never occurs in a padded number. -/
theorem T_not_mem_padNat (k n : Nat) : ('T' : Char) ∉ padNat k n := fun h =>
  absurd (mem_padNat_toNat h) (by decide)

/-- A period never occurs in a padded number. -/
theorem period_not_mem_padNat (k n : Nat) : ('.' : Char) ∉ padNat k n := fun h =>
  absurd (mem_padNat_toNat h) (by decide)

/-- A colon never occurs in a padded number. -/
theorem colon_not_mem_padNat (k n : Nat) : (':' : Char) ∉ padNat k n := fun h =>
  absurd (mem_padNat_toNat h) (by decide)

/-- The colon-to-dash map leaves padded numbers unchanged. -/
theorem map_colonDash_padNat (k n : Nat) : (padNat k n).map colonDash = padNat k n := by
  induction k generalizing n with
  | zero => simp [padNat]
  | succ k ih =>
    have hd : colonDash (dc (n / 10 ^ k)) = dc (n / 10 ^ k) := by
      unfold colonDash
      rw [if_neg]
      intro h
      exact absurd (h ▸ dc_toNat_range (n / 10 ^ k)) (by decide)
    simp [padNat, hd, ih]

/-- Replacement passes over a block not containing the pattern. -/
theorem replaceFirst_append_no (a b : Char) (l r : List Char) (h : a ∉ l) :
    replaceFirst a b (l ++ r) = l ++ replaceFirst a b r := by
  induction l with
  | nil => simp
  | cons c l ih =>
    have hca : ¬ c = a := fun hc => h (by simp [hc])
    simp only [List.cons_append, replaceFirst, hca, if_false, List.append_eq]
    rw [ih (fun hc => h (by simp [hc]))]

/-- Replacement rewrites the pattern when it is the head. -/
theorem replaceFirst_cons_hit (a b : Char) (r : List Char) :
    replaceFirst a b (a :: r) = b :: r := by
  simp [replaceFirst]

/-- Replacement passes over a non-matching head. -/
theorem replaceFirst_cons_miss (a b c : Char) (r : List Char) (h : ¬ c = a) :
    replaceFirst a b (c :: r) = c :: replaceFirst a b r := by
  simp [replaceFirst, h]

/-- Peeling a final singleton off `dropLast`. -/
theorem dropLast_eq_of_concat {α : Type} {l x : List α} {a : α} (h : l = x ++ [a]) :
    l.dropLast = x := by
  subst h
  exact List.dropLast_concat

/-- Closed form of the characters of `dateString`: the `toJSON` instant with all
separators normalized (`:`/`.` to `-`, `T` to `_`) and the `Z` removed. -/
theorem dateChars_eq (d : DateTime) :
    dateChars d =
      padNat 4 d.year ++ '-' :: padNat 2 d.month ++ '-' :: padNat 2 d.day ++
      '_' :: padNat 2 d.hour ++ '-' :: padNat 2 d.minute ++ '-' :: padNat 2 d.second ++
      '-' :: padNat 3 d.ms := by
  have c1 : colonDash '-' = '-' := rfl
  have c2 : colonDash 'T' = 'T' := rfl
  have c3 : colonDash ':' = '-' := rfl
  have c4 : colonDash '.' = '.' := rfl
  have c5 : colonDash 'Z' = 'Z' := rfl
  have n1 : ¬ ('-' : Char) = 'T' := by decide
  have n2 : ¬ ('-' : Char) = '.' := by decide
  have n3 : ¬ ('_' : Char) = '.' := by decide
  have n4 : ¬ ('Z' : Char) = 'T' := by decide
  have n5 : ¬ ('Z' : Char) = '.' := by decide
  unfold dateChars toJSONChars
  simp only [List.map_append, List.map_cons, List.map_nil, map_colonDash_padNat,
    c1, c2, c3, c4, c5]
  simp only [List.cons_append, List.append_assoc]
  simp only [replaceFirst_append_no, replaceFirst_cons_miss, replaceFirst_cons_hit,
    T_not_mem_padNat, period_not_mem_padNat, n1, n2, n3, n4, n5,
    not_false_eq_true]
  exact @dropLast_eq_of_concat Char _ _ 'Z' (by simp)

/-- Digit characters are ordered like their digits. -/
theorem dc_mono {a b : Nat} (h : a < b) (hb : b ≤ 9) : (dc a).toNat < (dc b).toNat := by
  have ha : a ≤ 8 := by omega
  interval_cases a <;> interval_cases b <;> simp_all <;> decide

/-- Two padded renderings of `n < m` (with `m` in range) agree on a common
prefix and then differ at a digit ordered like the numbers. -/
theorem padNat_lt_decomp :
    ∀ (k n m : Nat), n < m → m < 10 ^ k →
      ∃ q a b u v, padNat k n = q ++ a :: u ∧ padNat k m = q ++ b :: v ∧
        a.toNat < b.toNat := by
  intro k
  induction k with
  | zero => intro n m h1 h2; omega
  | succ k ih =>
    intro n m h1 h2
    by_cases hd : n / 10 ^ k = m / 10 ^ k
    · have hmod : n % 10 ^ k < m % 10 ^ k := by
        have e1 := Nat.div_add_mod n (10 ^ k)
        have e2 := Nat.div_add_mod m (10 ^ k)
        rw [hd] at e1
        omega
      have hmlt : m % 10 ^ k < 10 ^ k := Nat.mod_lt _ (by positivity)
      obtain ⟨q, a, b, u, v, e1, e2, hab⟩ := ih (n % 10 ^ k) (m % 10 ^ k) hmod hmlt
      refine ⟨dc (n / 10 ^ k) :: q, a, b, u, v, ?_, ?_, hab⟩
      · simp [padNat, e1]
      · simp [padNat, e2, hd]
    · have hio : n / 10 ^ k ≤ m / 10 ^ k := Nat.div_le_div_right (le_of_lt h1)
      have hlt : n / 10 ^ k < m / 10 ^ k := by omega
      have hm9 : m / 10 ^ k ≤ 9 := by
        have hpow : (10 : Nat) ^ (k + 1) = 10 ^ k * 10 := pow_succ 10 k
        have h10 : m / 10 ^ k < 10 := by
          rw [Nat.div_lt_iff_lt_mul (by positivity)]
          omega
        omega
      exact ⟨[], dc (n / 10 ^ k), dc (m / 10 ^ k), padNat k (n % 10 ^ k),
        padNat k (m % 10 ^ k), by simp [padNat], by simp [padNat], dc_mono hlt hm9⟩

/-- Identical prefixes cancel in the strict code-unit comparison. -/
theorem lexLtb_cancel (x r1 r2 : List Char) :
    lexLtb (x ++ r1) (x ++ r2) = lexLtb r1 r2 := by
  induction x with
  | nil => simp
  | cons c x ih => simp [lexLtb, ih]

/-- An identical head character cancels in the strict code-unit comparison. -/
theorem lexLtb_cons_same (c : Char) (r1 r2 : List Char) :
    lexLtb (c :: r1) (c :: r2) = lexLtb r1 r2 := by
  simp [lexLtb]

/-- Fixed-width zero-padded renderings of `n < m` compare strictly below,
whatever follows each. -/
theorem lexLtb_padNat_lt :
    ∀ (k n m : Nat), n < m → m < 10 ^ k → ∀ r1 r2 : List Char,
      lexLtb (padNat k n ++ r1) (padNat k m ++ r2) = true := by
  intro k
  induction k with
  | zero => intro n m h1 h2; omega
  | succ k ih =>
    intro n m h1 h2 r1 r2
    by_cases hd : n / 10 ^ k = m / 10 ^ k
    · have hmod : n % 10 ^ k < m % 10 ^ k := by
        have e1 := Nat.div_add_mod n (10 ^ k)
        have e2 := Nat.div_add_mod m (10 ^ k)
        rw [hd] at e1
        omega
      have hmlt : m % 10 ^ k < 10 ^ k := Nat.mod_lt _ (by positivity)
      have := ih (n % 10 ^ k) (m % 10 ^ k) hmod hmlt r1 r2
      simpa [padNat, hd, lexLtb_cons_same] using this
    · have hio : n / 10 ^ k ≤ m / 10 ^ k := Nat.div_le_div_right (le_of_lt h1)
      have hlt : n / 10 ^ k < m / 10 ^ k := by omega
      have hm9 : m / 10 ^ k ≤ 9 := by
        have hpow : (10 : Nat) ^ (k + 1) = 10 ^ k * 10 := pow_succ 10 k
        have h10 : m / 10 ^ k < 10 := by
          rw [Nat.div_lt_iff_lt_mul (by positivity)]
          omega
        omega
      simp [padNat, lexLtb, dc_mono hlt hm9]

/-- The timestamp of `dateString` contains neither a colon nor a period. -/
theorem colon_period_not_mem_dateChars (d : DateTime) :
    ':' ∉ dateChars d ∧ '.' ∉ dateChars d := by
  rw [dateChars_eq]
  constructor <;>
    simp [List.mem_append, List.mem_cons, colon_not_mem_padNat, period_not_mem_padNat]

/-- C6: the archive name is `dir/base_<timestamp>ext` where the timestamp
contains no colons and no periods and is derived from the ISO-8601 instant;
and for two archives of the same base name, strict lexicographic
(code-unit) order of the full names agrees with chronological order of
their creation instants. -/
theorem archive_name_chronological (dir base ext : String) (d1 d2 : DateTime)
    (h1 : d1.InRange) (h2 : d2.InRange) (h12 : d1.earlier d2) :
    (':' ∉ dateChars d1 ∧ '.' ∉ dateChars d1 ∧ ':' ∉ dateChars d2 ∧ '.' ∉ dateChars d2) ∧
    lexLtb (archiveName dir base ext d1).data (archiveName dir base ext d2).data = true := by
  refine ⟨⟨(colon_period_not_mem_dateChars d1).1, (colon_period_not_mem_dateChars d1).2,
    (colon_period_not_mem_dateChars d2).1, (colon_period_not_mem_dateChars d2).2⟩, ?_⟩
  unfold DateTime.InRange at h1 h2
  unfold DateTime.earlier at h12
  obtain ⟨hy1, hmo1, hdd1, hh1, hmi1, hs1, hms1⟩ := h1
  obtain ⟨hy2, hmo2, hdd2, hh2, hmi2, hs2, hms2⟩ := h2
  have hmk : ∀ l : List Char, (String.mk l).data = l := fun _ => rfl
  have key : lexLtb (dateChars d1 ++ ext.data) (dateChars d2 ++ ext.data) = true := by
    rw [dateChars_eq d1, dateChars_eq d2]
    rcases h12 with hy | ⟨ey, hmo | ⟨emo, hdd | ⟨edd, hh | ⟨eh, hmi | ⟨emi, hs | ⟨es, hms⟩⟩⟩⟩⟩⟩
    · simp only [List.append_assoc, List.cons_append]
      exact lexLtb_padNat_lt 4 _ _ hy (by simpa using hy2) _ _
    · rw [ey]
      simp only [List.append_assoc, List.cons_append, lexLtb_cancel, lexLtb_cons_same]
      exact lexLtb_padNat_lt 2 _ _ hmo (by simpa using hmo2) _ _
    · rw [ey, emo]
      simp only [List.append_assoc, List.cons_append, lexLtb_cancel, lexLtb_cons_same]
      exact lexLtb_padNat_lt 2 _ _ hdd (by simpa using hdd2) _ _
    · rw [ey, emo, edd]
      simp only [List.append_assoc, List.cons_append, lexLtb_cancel, lexLtb_cons_same]
      exact lexLtb_padNat_lt 2 _ _ hh (by simpa using hh2) _ _
    · rw [ey, emo, edd, eh]
      simp only [List.append_assoc, List.cons_append, lexLtb_cancel, lexLtb_cons_same]
      exact lexLtb_padNat_lt 2 _ _ hmi (by simpa using hmi2) _ _
    · rw [ey, emo, edd, eh, emi]
      simp only [List.append_assoc, List.cons_append, lexLtb_cancel, lexLtb_cons_same]
      exact lexLtb_padNat_lt 2 _ _ hs (by simpa using hs2) _ _
    · rw [ey, emo, edd, eh, emi, es]
      simp only [List.append_assoc, List.cons_append, lexLtb_cancel, lexLtb_cons_same]
      exact lexLtb_padNat_lt 3 _ _ hms (by simpa using hms2) _ _
  unfold archiveName pathJoin dateString
  by_cases hdir : dir = ""
  · simp only [hdir, if_true, eq_self_iff_true, String.data_append, hmk,
      List.append_assoc, lexLtb_cancel]
    exact key
  · simp only [hdir, if_false, String.data_append, hmk, List.append_assoc, lexLtb_cancel]
    exact key

/-- Witness for `archive_name_chronological`: two instants one millisecond
apart, and the resulting archive names in order. -/
theorem archive_name_chronological_witness :
    ((':' ∉ dateChars ⟨2019, 10, 28, 19, 1, 15, 122⟩ ∧
      '.' ∉ dateChars ⟨2019, 10, 28, 19, 1, 15, 122⟩ ∧
      ':' ∉ dateChars ⟨2019, 10, 28, 19, 1, 15, 123⟩ ∧
      '.' ∉ dateChars ⟨2019, 10, 28, 19, 1, 15, 123⟩) ∧
    lexLtb (archiveName "logs" "app" ".log" ⟨2019, 10, 28, 19, 1, 15, 122⟩).data
      (archiveName "logs" "app" ".log" ⟨2019, 10, 28, 19, 1, 15, 123⟩).data = true) :=
  archive_name_chronological "logs" "app" ".log" ⟨2019, 10, 28, 19, 1, 15, 122⟩
    ⟨2019, 10, 28, 19, 1, 15, 123⟩ (by unfold DateTime.InRange; decide)
    (by unfold DateTime.InRange; decide) (by unfold DateTime.earlier; decide)
